import Mathlib

/-!
Shallow embedding of the order/inventory reconciliation logic of
`src/server.py` (a canteen ordering backend): `place_order`
(`POST /orders`), `update_order` (`PUT /orders/{oid}`) and
`delete_order` (`DELETE /orders/{oid}`), together with the per-line-item
stock adjustment they perform against the `menu_items` table.

The database tables are modelled as association lists keyed by integer id.
SQL `SELECT ... WHERE id = %s` with `fetchone()` is the first matching
entry; `UPDATE ... WHERE id = %s` rewrites every matching entry (ids are
unique in practice).  The server uses `RealDictCursor`, so the dict
branches of the Python code are the live ones.  Quantities are integers
(`quantity INTEGER DEFAULT 0`).
-/

namespace Canteen

/-- A row of the `menu_items` table (the two columns the reconciliation
logic touches). -/
structure MenuItem where
  quantity : Int
  is_available : Bool
deriving DecidableEq

/-- One entry of an order's `items` JSON array, as read by
`item.get("id")` / `item.get("qty", 0)`.  A missing `"id"` key is `none`;
Python treats both `None` and `0` as falsy, so the code's
`if item_id and qty_ordered > 0` guard skips `none` and `some 0` alike. -/
structure LineItem where
  id : Option Int
  qty : Int
deriving DecidableEq

/-- The `menu_items` table: rows keyed by `id`. -/
abbrev Menu := List (Int × MenuItem)

/-- In-memory model of one SQL statement against `menu_items` issued by the
stock-adjustment code: the `SELECT quantity` read, the
`UPDATE ... SET quantity` write, and the `UPDATE ... SET is_available`
write. -/
inductive DbEvent where
  | readQty (item_id : Int)
  | writeQty (item_id : Int) (q : Int)
  | writeAvail (item_id : Int) (b : Bool)
deriving DecidableEq

/-- `SELECT * FROM menu_items WHERE id = i` with `fetchone()`. -/
def findItem : Menu → Int → Option MenuItem
  | [], _ => none
  | p :: rest, i => if p.1 = i then some p.2 else findItem rest i

/-- Rewrite the row(s) with key `i` by `f` (an `UPDATE ... WHERE id = i`). -/
def modItem : Menu → Int → (MenuItem → MenuItem) → Menu
  | [], _, _ => []
  | p :: rest, i, f => (if p.1 = i then (p.1, f p.2) else p) :: modItem rest i f

/-- `UPDATE menu_items SET quantity = q WHERE id = i`. -/
def updateQty (m : Menu) (i : Int) (q : Int) : Menu :=
  modItem m i fun it => { it with quantity := q }

/-- `UPDATE menu_items SET is_available = b WHERE id = i`. -/
def updateAvail (m : Menu) (i : Int) (b : Bool) : Menu :=
  modItem m i fun it => { it with is_available := b }

/-- The quantity column of row `i` (`none` when the row is absent). -/
def qtyOf (m : Menu) (i : Int) : Option Int :=
  (findItem m i).map fun it => it.quantity

/-- The deduction body of `place_order` (src/server.py:456-466) and of the
new-items loop of `update_order` (1270-1278), for one `item_id` and one
ordered quantity: read the current quantity; if the row is absent, no-op;
otherwise write `max 0 (current - qty)` and, when that hits zero, also set
`is_available = FALSE`.  The second component is the trace of SQL
statements issued against `menu_items`. -/
def deduct_stock (m : Menu) (i : Int) (qty : Int) : Menu × List DbEvent :=
  match findItem m i with
  | none => (m, [DbEvent.readQty i])
  | some item =>
    let cur := item.quantity
    let nq := max 0 (cur - qty)
    let m1 := updateQty m i nq
    if nq = 0 then
      (updateAvail m1 i false,
        [DbEvent.readQty i, DbEvent.writeQty i nq, DbEvent.writeAvail i false])
    else
      (m1, [DbEvent.readQty i, DbEvent.writeQty i nq])

/-- The restoration body of `delete_order` (src/server.py:1389-1402) and of
the old-items loop of `update_order` (1250-1258): read the current
quantity; if the row is absent, no-op; otherwise write `current + qty`
(no clamp) and, when the row goes from zero to positive, also set
`is_available = TRUE`. -/
def restore_stock (m : Menu) (i : Int) (qty : Int) : Menu × List DbEvent :=
  match findItem m i with
  | none => (m, [DbEvent.readQty i])
  | some item =>
    let cur := item.quantity
    let nq := cur + qty
    let m1 := updateQty m i nq
    if cur = 0 ∧ 0 < nq then
      (updateAvail m1 i true,
        [DbEvent.readQty i, DbEvent.writeQty i nq, DbEvent.writeAvail i true])
    else
      (m1, [DbEvent.readQty i, DbEvent.writeQty i nq])

/-- One iteration of a deduction loop: the `if item_id and qty_ordered > 0`
guard around `deduct_stock`. -/
def deductStep (m : Menu) (li : LineItem) : Menu :=
  match li.id with
  | none => m
  | some i => if i ≠ 0 ∧ 0 < li.qty then (deduct_stock m i li.qty).1 else m

/-- One iteration of a restoration loop: the same guard around
`restore_stock`. -/
def restoreStep (m : Menu) (li : LineItem) : Menu :=
  match li.id with
  | none => m
  | some i => if i ≠ 0 ∧ 0 < li.qty then (restore_stock m i li.qty).1 else m

/-- The full deduction loop over an order's items. -/
def deductAll (m : Menu) (items : List LineItem) : Menu :=
  items.foldl deductStep m

/-- The full restoration loop over an order's items. -/
def restoreAll (m : Menu) (items : List LineItem) : Menu :=
  items.foldl restoreStep m

/-- The stock deduction a line item contributes to menu item `j`: its `qty`
when the guard passes and it references `j`, and `0` otherwise (skipped
entries: missing/falsy id or non-positive qty). -/
def contrib (li : LineItem) (j : Int) : Int :=
  if li.id = some j ∧ j ≠ 0 ∧ 0 < li.qty then li.qty else 0

/-- Total quantity a list of line items deducts from (or, on restoration,
adds back to) menu item `j`. -/
def totalDeduct (items : List LineItem) (j : Int) : Int :=
  (items.map fun li => contrib li j).sum

/-- A row of the `orders` table (the columns the three operations read or
write). -/
structure Order where
  user_id : Option Int
  status : String
  items : List LineItem
  fullname : Option String
  contact : Option String
  location : Option String
  total : Option Int
  payment_method : String
  payment_status : String
deriving DecidableEq

/-- The `orders` table: rows keyed by `id`. -/
abbrev OrdersTable := List (Int × Order)

/-- `SELECT * FROM orders WHERE id = oid` with `fetchone()`. -/
def findOrder : OrdersTable → Int → Option Order
  | [], _ => none
  | p :: rest, oid => if p.1 = oid then some p.2 else findOrder rest oid

/-- `DELETE FROM orders WHERE id = oid`. -/
def deleteOrderRow : OrdersTable → Int → OrdersTable
  | [], _ => []
  | p :: rest, oid =>
    if p.1 = oid then deleteOrderRow rest oid else p :: deleteOrderRow rest oid

/-- `UPDATE orders SET ... WHERE id = oid`, replacing the stored row. -/
def replaceOrder : OrdersTable → Int → Order → OrdersTable
  | [], _, _ => []
  | p :: rest, oid, o =>
    (if p.1 = oid then (p.1, o) else p) :: replaceOrder rest oid o

/-- Database state shared by the three operations.  `nextId` is the
`SERIAL` id the next `INSERT INTO orders ... RETURNING *` will assign. -/
structure DB where
  menu : Menu
  orders : OrdersTable
  nextId : Int
deriving DecidableEq

/-- The JSON body of `POST /orders` as read by `data.get(...)`. -/
structure PlaceInput where
  user_id : Option Int
  fullname : Option String
  contact : Option String
  location : Option String
  items : List LineItem
  total : Option Int
  payment_method : Option String
  payment_status : Option String
deriving DecidableEq

/-- The errors the cancel/edit handlers raise before reaching their
success path (`HTTPException(404/400/403)`).  Raising aborts the handler
before `conn.commit()`, so an error result carries no state change. -/
inductive ApiError where
  | notFound (oid : Int)
  | notPending (status : String)
  | forbidden
  | noFields
deriving DecidableEq

instance instDecEqExcept {ε α : Type} [DecidableEq ε] [DecidableEq α] :
    DecidableEq (Except ε α) := fun a b =>
  match a, b with
  | Except.ok x, Except.ok y =>
    match decEq x y with
    | isTrue h => isTrue (by rw [h])
    | isFalse h => isFalse fun hh => by injection hh with h2; exact h h2
  | Except.error x, Except.error y =>
    match decEq x y with
    | isTrue h => isTrue (by rw [h])
    | isFalse h => isFalse fun hh => by injection hh with h2; exact h h2
  | Except.ok _, Except.error _ => isFalse fun hh => Except.noConfusion hh
  | Except.error _, Except.ok _ => isFalse fun hh => Except.noConfusion hh

/-- `place_order` (src/server.py:449-530): run the deduction loop over
`data["items"]`, then insert the order row with the original items payload
serialized verbatim.  Modelled from the spec: the `orders` table DDL is
not under src/, and per the spec the inserted row's `status` defaults to
`"Pending"`; `payment_method` and `payment_status` default to `"cash"` and
`"pending"` (those two defaults are also in the code, lines 514-515).
Returns the new state and the created row. -/
def place_order (db : DB) (data : PlaceInput) : DB × Order :=
  let m := deductAll db.menu data.items
  let o : Order := {
    user_id := data.user_id
    status := "Pending"
    items := data.items
    fullname := data.fullname
    contact := data.contact
    location := data.location
    total := data.total
    payment_method := data.payment_method.getD "cash"
    payment_status := data.payment_status.getD "pending" }
  ({ menu := m, orders := db.orders ++ [(db.nextId, o)], nextId := db.nextId + 1 }, o)

/-- `delete_order` (src/server.py:1336-1415): look the order up (404 if
absent); reject with the not-Pending message if `status != "Pending"`;
then, if a requesting `user_id` was supplied, reject with 403 unless it
matches the order's owner; otherwise run the restoration loop over the
stored items and delete the order row. -/
def delete_order (db : DB) (oid : Int) (user_id : Option Int) : Except ApiError DB :=
  match findOrder db.orders oid with
  | none => Except.error (ApiError.notFound oid)
  | some o =>
    if o.status ≠ "Pending" then Except.error (ApiError.notPending o.status)
    else if user_id.isSome ∧ user_id ≠ o.user_id then Except.error ApiError.forbidden
    else
      Except.ok { db with
        menu := restoreAll db.menu o.items
        orders := deleteOrderRow db.orders oid }

/-- The JSON body of `PUT /orders/{oid}`: `some` marks a key present in the
payload. -/
structure EditInput where
  user_id : Option Int
  fullname : Option String
  contact : Option String
  location : Option String
  items : Option (List LineItem)
  total : Option Int
  status : Option String
deriving DecidableEq

/-- The code's `"fullname" in data or "contact" in data or "location" in
data or "items" in data or "total" in data` test (src/server.py:1236). -/
def hasDetailField (d : EditInput) : Bool :=
  d.fullname.isSome || d.contact.isSome || d.location.isSome ||
    d.items.isSome || d.total.isSome

/-- `update_order` (src/server.py:1207-1336): look the order up (404 if
absent); if a `user_id` was supplied, reject with 403 unless it matches
the owner; if any detail field (fullname/contact/location/items/total) is
present, require `status == "Pending"` (400 otherwise), restore stock for
the old items then deduct stock for the new items when `items` is present,
and write the supplied fields (plus `status` when supplied); if only
`status` is supplied, update it directly; 400 when nothing was supplied. -/
def update_order (db : DB) (oid : Int) (d : EditInput) : Except ApiError (DB × Order) :=
  match findOrder db.orders oid with
  | none => Except.error (ApiError.notFound oid)
  | some o =>
    if d.user_id.isSome ∧ d.user_id ≠ o.user_id then Except.error ApiError.forbidden
    else if hasDetailField d then
      if o.status ≠ "Pending" then Except.error (ApiError.notPending o.status)
      else
        let m := match d.items with
          | some newItems => deductAll (restoreAll db.menu o.items) newItems
          | none => db.menu
        let o' : Order := {
          user_id := o.user_id
          status := d.status.getD o.status
          items := d.items.getD o.items
          fullname := if d.fullname.isSome then d.fullname else o.fullname
          contact := if d.contact.isSome then d.contact else o.contact
          location := if d.location.isSome then d.location else o.location
          total := if d.total.isSome then d.total else o.total
          payment_method := o.payment_method
          payment_status := o.payment_status }
        Except.ok ({ db with menu := m, orders := replaceOrder db.orders oid o' }, o')
    else
      match d.status with
      | some s =>
        let o' := { o with status := s }
        Except.ok ({ db with orders := replaceOrder db.orders oid o' }, o')
      | none => Except.error ApiError.noFields

/-- Quantity of menu item `j` in the state a cancel call produced, `none`
when the call failed (an error carries no state change). -/
def exceptMenuQty (r : Except ApiError DB) (j : Int) : Option Int :=
  match r with
  | Except.ok db => qtyOf db.menu j
  | Except.error _ => none

/-- Two `place_order` stock deductions for the same item id, interleaved so
that both `SELECT quantity` reads happen before either `UPDATE` (each
request runs on its own connection with plain reads and no row locking, so
this interleaving is admitted).  Each thread executes exactly the source's
read-then-clamped-write (src/server.py:456-466) against the shared table;
returns the final table and the quantity each thread believes it deducted
(its observed quantity minus the value it wrote). -/
def concurrent_place_deduct (m : Menu) (i : Int) (qA qB : Int) :
    Menu × Int × Int :=
  let curA := match findItem m i with | some it => it.quantity | none => 0
  let curB := match findItem m i with | some it => it.quantity | none => 0
  let nqA := max 0 (curA - qA)
  let m1 :=
    let w := updateQty m i nqA
    if nqA = 0 then updateAvail w i false else w
  let nqB := max 0 (curB - qB)
  let m2 :=
    let w := updateQty m1 i nqB
    if nqB = 0 then updateAvail w i false else w
  (m2, curA - nqA, curB - nqB)

/-- Number of `SELECT quantity` statements in a stock-adjustment trace. -/
def countReads (evs : List DbEvent) : Nat :=
  (evs.filter fun e => match e with | DbEvent.readQty _ => true | _ => false).length

/-- Number of `UPDATE menu_items` statements in a stock-adjustment trace
(both the quantity write and the availability-flag write touch the
`menu_items` row). -/
def countWrites (evs : List DbEvent) : Nat :=
  (evs.filter fun e => match e with | DbEvent.readQty _ => false | _ => true).length

/-! Concrete fixtures used by witnesses and counterexamples. -/

/-- A menu with two items in stock: item 1 has 5 units, item 2 has 3. -/
def wMenu : Menu := [(1, ⟨5, true⟩), (2, ⟨3, true⟩)]

/-- A Pending order of user 7 holding 2 units of item 1. -/
def wPending : Order :=
  { user_id := some 7, status := "Pending", items := [⟨some 1, 2⟩],
    fullname := none, contact := none, location := none, total := none,
    payment_method := "cash", payment_status := "pending" }

/-- A Completed order of user 7 holding 2 units of item 1. -/
def wDone : Order := { wPending with status := "Completed" }

/-- A database with one Pending order (id 1) and one Completed order (id 2). -/
def wDb : DB := { menu := wMenu, orders := [(1, wPending), (2, wDone)], nextId := 3 }

/-- A `POST /orders` body ordering 2 units of item 1, 1 unit of the absent
item 9, plus two skipped entries (zero qty; missing id). -/
def wInp : PlaceInput :=
  { user_id := some 7, fullname := some "w", contact := none, location := none,
    items := [⟨some 1, 2⟩, ⟨some 9, 1⟩, ⟨some 2, 0⟩, ⟨none, 4⟩], total := some 100,
    payment_method := none, payment_status := none }

/-- An edit by owner 7 re-submitting `wPending`'s items unchanged. -/
def wEditSame : EditInput :=
  { user_id := some 7, fullname := none, contact := none, location := none,
    items := some [⟨some 1, 2⟩], total := none, status := none }

/-- An edit touching a detail field (`fullname`) with no requesting user. -/
def wEditDetail : EditInput :=
  { user_id := none, fullname := some "n", contact := none, location := none,
    items := none, total := none, status := none }

/-- An edit touching a detail field by the non-owner user 8. -/
def wEditWrongUser : EditInput := { wEditDetail with user_id := some 8 }

/-- Counterexample start state: item 1 has a single unit in stock. -/
def cDb0 : DB := { menu := [(1, ⟨1, true⟩)], orders := [], nextId := 1 }

/-- Counterexample order body: 3 units of item 1 (more than the stock). -/
def cInp : PlaceInput :=
  { user_id := none, fullname := none, contact := none, location := none,
    items := [⟨some 1, 3⟩], total := none,
    payment_method := none, payment_status := none }

/-- State after placing `cInp` against `cDb0`: the clamped deduction removed
only the 1 unit that was in stock. -/
def cDb1 : DB := (place_order cDb0 cInp).1

/-! Basic lemmas about the table primitives. -/

theorem findItem_modItem_self (m : Menu) (i : Int) (f : MenuItem → MenuItem) :
    findItem (modItem m i f) i = (findItem m i).map f := by
  induction m with
  | nil => rfl
  | cons p rest ih =>
    by_cases h : p.1 = i
    · simp [modItem, findItem, h]
    · simp [modItem, findItem, h, ih]

theorem findItem_modItem_ne (m : Menu) {i j : Int} (f : MenuItem → MenuItem)
    (h : j ≠ i) : findItem (modItem m i f) j = findItem m j := by
  induction m with
  | nil => rfl
  | cons p rest ih =>
    have h3 : i ≠ j := fun hh => h hh.symm
    by_cases h1 : p.1 = i
    · have h2 : p.1 ≠ j := by rw [h1]; exact h3
      simp [modItem, findItem, h1, h2, h3, ih]
    · by_cases h2 : p.1 = j
      · simp [modItem, findItem, h1, h2, h, ih]
      · simp [modItem, findItem, h1, h2, ih]

theorem findItem_modItem_none (m : Menu) (i : Int) (f : MenuItem → MenuItem)
    (j : Int) (h : findItem m j = none) : findItem (modItem m i f) j = none := by
  by_cases hji : j = i
  · subst hji; rw [findItem_modItem_self, h]; rfl
  · rw [findItem_modItem_ne m f hji, h]

theorem qtyOf_updateQty_some (m : Menu) (i q c : Int) (h : qtyOf m i = some c) :
    qtyOf (updateQty m i q) i = some q := by
  unfold qtyOf at h ⊢
  rw [updateQty, findItem_modItem_self]
  cases hf : findItem m i
  · rw [hf] at h; simp at h
  · simp

theorem qtyOf_updateQty_ne (m : Menu) {i j : Int} (q : Int) (h : j ≠ i) :
    qtyOf (updateQty m i q) j = qtyOf m j := by
  unfold qtyOf
  rw [updateQty, findItem_modItem_ne m _ h]

theorem qtyOf_updateAvail (m : Menu) (i : Int) (b : Bool) (j : Int) :
    qtyOf (updateAvail m i b) j = qtyOf m j := by
  by_cases hji : j = i
  · subst hji
    unfold qtyOf
    rw [updateAvail, findItem_modItem_self]
    cases findItem m j <;> simp
  · unfold qtyOf
    rw [updateAvail, findItem_modItem_ne m _ hji]

theorem qtyOf_deduct_stock_self (m : Menu) (i q c : Int) (h : qtyOf m i = some c) :
    qtyOf (deduct_stock m i q).1 i = some (max 0 (c - q)) := by
  obtain ⟨it, hit⟩ : ∃ it, findItem m i = some it := by
    unfold qtyOf at h
    cases hf : findItem m i
    · rw [hf] at h; simp at h
    · exact ⟨_, rfl⟩
  have hc : it.quantity = c := by
    unfold qtyOf at h; rw [hit] at h; simpa using h
  simp only [deduct_stock, hit]
  subst hc
  split
  · rw [qtyOf_updateAvail, qtyOf_updateQty_some m i _ _ h]
  · rw [qtyOf_updateQty_some m i _ _ h]

theorem qtyOf_deduct_stock_ne (m : Menu) {i j : Int} (q : Int) (h : j ≠ i) :
    qtyOf (deduct_stock m i q).1 j = qtyOf m j := by
  unfold deduct_stock
  cases hf : findItem m i
  · rfl
  · simp only
    split
    · rw [qtyOf_updateAvail, qtyOf_updateQty_ne m _ h]
    · rw [qtyOf_updateQty_ne m _ h]

theorem findItem_deduct_stock_none (m : Menu) (i q j : Int)
    (h : findItem m j = none) : findItem (deduct_stock m i q).1 j = none := by
  unfold deduct_stock
  cases hf : findItem m i
  · exact h
  · simp only
    split
    · exact findItem_modItem_none _ _ _ _ (findItem_modItem_none _ _ _ _ h)
    · exact findItem_modItem_none _ _ _ _ h

theorem qtyOf_restore_stock_self (m : Menu) (i q c : Int) (h : qtyOf m i = some c) :
    qtyOf (restore_stock m i q).1 i = some (c + q) := by
  obtain ⟨it, hit⟩ : ∃ it, findItem m i = some it := by
    unfold qtyOf at h
    cases hf : findItem m i
    · rw [hf] at h; simp at h
    · exact ⟨_, rfl⟩
  have hc : it.quantity = c := by
    unfold qtyOf at h; rw [hit] at h; simpa using h
  simp only [restore_stock, hit]
  subst hc
  split
  · rw [qtyOf_updateAvail, qtyOf_updateQty_some m i _ _ h]
  · rw [qtyOf_updateQty_some m i _ _ h]

theorem qtyOf_restore_stock_ne (m : Menu) {i j : Int} (q : Int) (h : j ≠ i) :
    qtyOf (restore_stock m i q).1 j = qtyOf m j := by
  unfold restore_stock
  cases hf : findItem m i
  · rfl
  · simp only
    split
    · rw [qtyOf_updateAvail, qtyOf_updateQty_ne m _ h]
    · rw [qtyOf_updateQty_ne m _ h]

theorem findItem_restore_stock_none (m : Menu) (i q j : Int)
    (h : findItem m j = none) : findItem (restore_stock m i q).1 j = none := by
  unfold restore_stock
  cases hf : findItem m i
  · exact h
  · simp only
    split
    · exact findItem_modItem_none _ _ _ _ (findItem_modItem_none _ _ _ _ h)
    · exact findItem_modItem_none _ _ _ _ h

/-! Per-line-item step lemmas. -/

theorem qtyOf_deductStep_hit (m : Menu) (li : LineItem) (j c : Int)
    (hid : li.id = some j) (hj : j ≠ 0) (hq : 0 < li.qty)
    (h : qtyOf m j = some c) :
    qtyOf (deductStep m li) j = some (max 0 (c - li.qty)) := by
  simp only [deductStep, hid]
  rw [if_pos ⟨hj, hq⟩]
  exact qtyOf_deduct_stock_self m j li.qty c h

theorem qtyOf_deductStep_frame (m : Menu) (li : LineItem) (j : Int)
    (hmiss : ¬(li.id = some j ∧ j ≠ 0 ∧ 0 < li.qty)) :
    qtyOf (deductStep m li) j = qtyOf m j := by
  cases hid : li.id with
  | none => simp only [deductStep, hid]
  | some i =>
    simp only [deductStep, hid]
    by_cases hg : i ≠ 0 ∧ 0 < li.qty
    · rw [if_pos hg]
      have hij : j ≠ i := by rintro rfl; exact hmiss ⟨hid, hg.1, hg.2⟩
      exact qtyOf_deduct_stock_ne m li.qty hij
    · rw [if_neg hg]

theorem findItem_deductStep_none (m : Menu) (li : LineItem) (j : Int)
    (h : findItem m j = none) : findItem (deductStep m li) j = none := by
  cases hid : li.id with
  | none => simp only [deductStep, hid]; exact h
  | some i =>
    simp only [deductStep, hid]
    split
    · exact findItem_deduct_stock_none m i li.qty j h
    · exact h

theorem qtyOf_restoreStep_hit (m : Menu) (li : LineItem) (j c : Int)
    (hid : li.id = some j) (hj : j ≠ 0) (hq : 0 < li.qty)
    (h : qtyOf m j = some c) :
    qtyOf (restoreStep m li) j = some (c + li.qty) := by
  simp only [restoreStep, hid]
  rw [if_pos ⟨hj, hq⟩]
  exact qtyOf_restore_stock_self m j li.qty c h

theorem qtyOf_restoreStep_frame (m : Menu) (li : LineItem) (j : Int)
    (hmiss : ¬(li.id = some j ∧ j ≠ 0 ∧ 0 < li.qty)) :
    qtyOf (restoreStep m li) j = qtyOf m j := by
  cases hid : li.id with
  | none => simp only [restoreStep, hid]
  | some i =>
    simp only [restoreStep, hid]
    by_cases hg : i ≠ 0 ∧ 0 < li.qty
    · rw [if_pos hg]
      have hij : j ≠ i := by rintro rfl; exact hmiss ⟨hid, hg.1, hg.2⟩
      exact qtyOf_restore_stock_ne m li.qty hij
    · rw [if_neg hg]

theorem findItem_restoreStep_none (m : Menu) (li : LineItem) (j : Int)
    (h : findItem m j = none) : findItem (restoreStep m li) j = none := by
  cases hid : li.id with
  | none => simp only [restoreStep, hid]; exact h
  | some i =>
    simp only [restoreStep, hid]
    split
    · exact findItem_restore_stock_none m i li.qty j h
    · exact h

/-! Loop-level lemmas. -/

theorem contrib_nonneg (li : LineItem) (j : Int) : 0 ≤ contrib li j := by
  unfold contrib
  split
  · rename_i h; exact le_of_lt h.2.2
  · exact le_refl 0

theorem totalDeduct_nonneg (items : List LineItem) (j : Int) :
    0 ≤ totalDeduct items j := by
  unfold totalDeduct
  induction items with
  | nil => simp
  | cons li rest ih =>
    simp only [List.map_cons, List.sum_cons]
    have := contrib_nonneg li j
    omega

theorem totalDeduct_cons (li : LineItem) (rest : List LineItem) (j : Int) :
    totalDeduct (li :: rest) j = contrib li j + totalDeduct rest j := by
  simp [totalDeduct]

theorem qtyOf_deductAll (items : List LineItem) :
    ∀ (m : Menu) (j c : Int), qtyOf m j = some c → 0 ≤ c →
      qtyOf (deductAll m items) j = some (max 0 (c - totalDeduct items j)) := by
  induction items with
  | nil =>
    intro m j c h hc
    simp only [deductAll, List.foldl_nil]
    rw [h]
    have : totalDeduct [] j = 0 := by simp [totalDeduct]
    rw [this]
    congr 1
    omega
  | cons li rest ih =>
    intro m j c h hc
    have hstep : deductAll m (li :: rest) = deductAll (deductStep m li) rest := rfl
    rw [hstep, totalDeduct_cons]
    by_cases hhit : li.id = some j ∧ j ≠ 0 ∧ 0 < li.qty
    · have h1 := qtyOf_deductStep_hit m li j c hhit.1 hhit.2.1 hhit.2.2 h
      have h2 := ih (deductStep m li) j (max 0 (c - li.qty)) h1 (le_max_left 0 _)
      rw [h2]
      have hT := totalDeduct_nonneg rest j
      have hcontrib : contrib li j = li.qty := if_pos hhit
      rw [hcontrib]
      congr 1
      have hq := hhit.2.2
      omega
    · have h1 := qtyOf_deductStep_frame m li j hhit
      have h2 := ih (deductStep m li) j c (by rw [h1]; exact h) hc
      rw [h2]
      have hcontrib : contrib li j = 0 := if_neg hhit
      rw [hcontrib]
      congr 2
      omega

theorem qtyOf_restoreAll (items : List LineItem) :
    ∀ (m : Menu) (j c : Int), qtyOf m j = some c →
      qtyOf (restoreAll m items) j = some (c + totalDeduct items j) := by
  induction items with
  | nil =>
    intro m j c h
    simp only [restoreAll, List.foldl_nil]
    rw [h]
    have : totalDeduct [] j = 0 := by simp [totalDeduct]
    rw [this]
    congr 1
    omega
  | cons li rest ih =>
    intro m j c h
    have hstep : restoreAll m (li :: rest) = restoreAll (restoreStep m li) rest := rfl
    rw [hstep, totalDeduct_cons]
    by_cases hhit : li.id = some j ∧ j ≠ 0 ∧ 0 < li.qty
    · have h1 := qtyOf_restoreStep_hit m li j c hhit.1 hhit.2.1 hhit.2.2 h
      have h2 := ih (restoreStep m li) j (c + li.qty) h1
      rw [h2]
      have hcontrib : contrib li j = li.qty := if_pos hhit
      rw [hcontrib]
      congr 1
      omega
    · have h1 := qtyOf_restoreStep_frame m li j hhit
      have h2 := ih (restoreStep m li) j c (by rw [h1]; exact h)
      rw [h2]
      have hcontrib : contrib li j = 0 := if_neg hhit
      rw [hcontrib]
      congr 1
      omega

theorem findItem_deductAll_none (items : List LineItem) :
    ∀ (m : Menu) (j : Int), findItem m j = none →
      findItem (deductAll m items) j = none := by
  induction items with
  | nil => intro m j h; exact h
  | cons li rest ih =>
    intro m j h
    exact ih (deductStep m li) j (findItem_deductStep_none m li j h)

theorem findItem_restoreAll_none (items : List LineItem) :
    ∀ (m : Menu) (j : Int), findItem m j = none →
      findItem (restoreAll m items) j = none := by
  induction items with
  | nil => intro m j h; exact h
  | cons li rest ih =>
    intro m j h
    exact ih (restoreStep m li) j (findItem_restoreStep_none m li j h)

/-- A menu is well-stocked when every present row has a non-negative
quantity. -/
def NonnegMenu (m : Menu) : Prop :=
  ∀ j c, qtyOf m j = some c → 0 ≤ c

theorem deductStep_nonneg (m : Menu) (li : LineItem) (h : NonnegMenu m) :
    NonnegMenu (deductStep m li) := by
  intro j c hc
  by_cases hhit : li.id = some j ∧ j ≠ 0 ∧ 0 < li.qty
  · cases hq : qtyOf m j with
    | none =>
      have hnone : findItem m j = none := by
        unfold qtyOf at hq
        cases hf : findItem m j
        · rfl
        · rw [hf] at hq; simp at hq
      have : findItem (deductStep m li) j = none := findItem_deductStep_none m li j hnone
      unfold qtyOf at hc
      rw [this] at hc
      simp at hc
    | some c0 =>
      rw [qtyOf_deductStep_hit m li j c0 hhit.1 hhit.2.1 hhit.2.2 hq] at hc
      have : max 0 (c0 - li.qty) = c := by simpa using hc
      omega
  · rw [qtyOf_deductStep_frame m li j hhit] at hc
    exact h j c hc

theorem restoreStep_nonneg (m : Menu) (li : LineItem) (h : NonnegMenu m) :
    NonnegMenu (restoreStep m li) := by
  intro j c hc
  by_cases hhit : li.id = some j ∧ j ≠ 0 ∧ 0 < li.qty
  · cases hq : qtyOf m j with
    | none =>
      have hnone : findItem m j = none := by
        unfold qtyOf at hq
        cases hf : findItem m j
        · rfl
        · rw [hf] at hq; simp at hq
      have : findItem (restoreStep m li) j = none := findItem_restoreStep_none m li j hnone
      unfold qtyOf at hc
      rw [this] at hc
      simp at hc
    | some c0 =>
      rw [qtyOf_restoreStep_hit m li j c0 hhit.1 hhit.2.1 hhit.2.2 hq] at hc
      have h0 : 0 ≤ c0 := h j c0 hq
      have : c0 + li.qty = c := by simpa using hc
      have hq2 := hhit.2.2
      omega
  · rw [qtyOf_restoreStep_frame m li j hhit] at hc
    exact h j c hc

theorem deductAll_nonneg (items : List LineItem) :
    ∀ (m : Menu), NonnegMenu m → NonnegMenu (deductAll m items) := by
  induction items with
  | nil => intro m h; exact h
  | cons li rest ih =>
    intro m h
    exact ih (deductStep m li) (deductStep_nonneg m li h)

theorem restoreAll_nonneg (items : List LineItem) :
    ∀ (m : Menu), NonnegMenu m → NonnegMenu (restoreAll m items) := by
  induction items with
  | nil => intro m h; exact h
  | cons li rest ih =>
    intro m h
    exact ih (restoreStep m li) (restoreStep_nonneg m li h)

theorem deductStep_skip (m : Menu) (li : LineItem)
    (h : li.qty ≤ 0 ∨ li.id = none ∨ li.id = some 0) :
    deductStep m li = m := by
  cases hid : li.id with
  | none => simp only [deductStep, hid]
  | some i =>
    simp only [deductStep, hid]
    rw [if_neg]
    rintro ⟨hi0, hqpos⟩
    rcases h with hq | hn | h0
    · omega
    · rw [hid] at hn; cases hn
    · rw [hid] at h0; injection h0 with h0; exact hi0 h0

theorem deductAll_skipped (items : List LineItem)
    (hall : ∀ li ∈ items, li.qty ≤ 0 ∨ li.id = none ∨ li.id = some 0) :
    ∀ m : Menu, deductAll m items = m := by
  induction items with
  | nil => intro m; rfl
  | cons li rest ih =>
    intro m
    have hstep : deductAll m (li :: rest) = deductAll (deductStep m li) rest := rfl
    rw [hstep, deductStep_skip m li (hall li (List.mem_cons_self li rest))]
    exact ih (fun l hl => hall l (List.mem_cons_of_mem li hl)) m

/-! Order-table lemmas. -/

theorem findOrder_append_fresh (os : OrdersTable) (k : Int) (o : Order)
    (h : findOrder os k = none) : findOrder (os ++ [(k, o)]) k = some o := by
  induction os with
  | nil => simp [findOrder]
  | cons p rest ih =>
    by_cases hp : p.1 = k
    · rw [findOrder] at h
      rw [if_pos hp] at h
      cases h
    · rw [findOrder] at h
      rw [if_neg hp] at h
      simpa [findOrder, hp] using ih h

theorem findOrder_deleteOrderRow_self (os : OrdersTable) (k : Int) :
    findOrder (deleteOrderRow os k) k = none := by
  induction os with
  | nil => rfl
  | cons p rest ih =>
    by_cases hp : p.1 = k
    · simpa [deleteOrderRow, hp] using ih
    · simpa [deleteOrderRow, findOrder, hp] using ih

/-! Claim theorems. -/

/-- C2: after `place_order`, every menu item's quantity equals
`max 0 (pre_quantity - qty)` where `qty` is the total quantity ordered for
that item (`totalDeduct` sums exactly the line items with a truthy id and
positive qty, so entries with `qty ≤ 0` or a missing/falsy id contribute
no change); moreover a body all of whose line items are skipped leaves the
menu table untouched. -/
theorem c2_place_order_stock (db : DB) (inp : PlaceInput) (j c : Int)
    (h : qtyOf db.menu j = some c) (hc : 0 ≤ c) :
    qtyOf (place_order db inp).1.menu j =
        some (max 0 (c - totalDeduct inp.items j)) ∧
    ((∀ li ∈ inp.items, li.qty ≤ 0 ∨ li.id = none ∨ li.id = some 0) →
      (place_order db inp).1.menu = db.menu) := by
  constructor
  · exact qtyOf_deductAll inp.items db.menu j c h hc
  · intro hall
    exact deductAll_skipped inp.items hall db.menu

/-- Witness for C2: placing `wInp` (2 units of item 1, plus skipped and
dangling entries) against `wDb` drops item 1 from 5 to 3 units. -/
theorem c2_witness :
    qtyOf (place_order wDb wInp).1.menu 1 =
        some (max 0 (5 - totalDeduct wInp.items 1)) ∧
    ((∀ li ∈ wInp.items, li.qty ≤ 0 ∨ li.id = none ∨ li.id = some 0) →
      (place_order wDb wInp).1.menu = wDb.menu) :=
  c2_place_order_stock wDb wInp 1 5 (by decide) (by decide)

/-- C7: `place_order` with a line item whose id is absent from
`menu_items` writes no stock row for it (the id is still absent
afterwards) and still inserts the order row, with the original items
payload stored verbatim and status Pending. -/
theorem c7_place_order_dangling (db : DB) (inp : PlaceInput) (i : Int)
    (li : LineItem) (_hmem : li ∈ inp.items) (_hid : li.id = some i)
    (hdang : findItem db.menu i = none)
    (hfresh : findOrder db.orders db.nextId = none) :
    findItem (place_order db inp).1.menu i = none ∧
    findOrder (place_order db inp).1.orders db.nextId =
        some (place_order db inp).2 ∧
    (place_order db inp).2.items = inp.items ∧
    (place_order db inp).2.status = "Pending" := by
  refine ⟨?_, ?_, rfl, rfl⟩
  · exact findItem_deductAll_none inp.items db.menu i hdang
  · exact findOrder_append_fresh db.orders db.nextId _ hfresh

/-- Witness for C7: `wInp` contains the dangling line item with id 9,
absent from `wMenu`; the order is still created with the payload intact. -/
theorem c7_witness :
    findItem (place_order wDb wInp).1.menu 9 = none ∧
    findOrder (place_order wDb wInp).1.orders wDb.nextId =
        some (place_order wDb wInp).2 ∧
    (place_order wDb wInp).2.items = wInp.items ∧
    (place_order wDb wInp).2.status = "Pending" :=
  c7_place_order_dangling wDb wInp 9 ⟨some 9, 1⟩ (by decide) (by decide)
    (by decide) (by decide)

/-- C3: cancelling an existing Pending order (owner matching when a
requesting user is supplied) succeeds, adds each stored line item's
quantity back to the referenced menu item (in aggregate, `totalDeduct`),
and deletes the order row, so a subsequent fetch of that id finds
nothing. -/
theorem c3_cancel_pending (db : DB) (oid : Int) (o : Order) (uid : Option Int)
    (hfind : findOrder db.orders oid = some o)
    (hstat : o.status = "Pending")
    (hown : uid = none ∨ uid = o.user_id) :
    ∃ db', delete_order db oid uid = Except.ok db' ∧
      (∀ j c, qtyOf db.menu j = some c →
        qtyOf db'.menu j = some (c + totalDeduct o.items j)) ∧
      findOrder db'.orders oid = none := by
  have how : ¬(uid.isSome ∧ uid ≠ o.user_id) := by
    rcases hown with rfl | rfl
    · simp
    · simp
  have heq : delete_order db oid uid = Except.ok
      { db with menu := restoreAll db.menu o.items
                orders := deleteOrderRow db.orders oid } := by
    simp only [delete_order, hfind]
    rw [if_neg (by simp [hstat]), if_neg how]
  refine ⟨_, heq, ?_, ?_⟩
  · intro j c h
    exact qtyOf_restoreAll o.items db.menu j c h
  · exact findOrder_deleteOrderRow_self db.orders oid

/-- Witness for C3: user 7 cancels their Pending order 1 in `wDb`. -/
theorem c3_witness :
    ∃ db', delete_order wDb 1 (some 7) = Except.ok db' ∧
      (∀ j c, qtyOf wDb.menu j = some c →
        qtyOf db'.menu j = some (c + totalDeduct wPending.items j)) ∧
      findOrder db'.orders 1 = none :=
  c3_cancel_pending wDb 1 wPending (some 7) (by decide) (by decide) (by decide)

/-- C10: `delete_order` tests the Pending precondition before the
ownership check, so cancelling a non-Pending order with a mismatched
requesting user fails with the not-Pending error (naming the current
status), not with the permission error. -/
theorem c10_cancel_nonpending_before_ownership (db : DB) (oid : Int)
    (o : Order) (u : Int)
    (hfind : findOrder db.orders oid = some o)
    (hstat : o.status ≠ "Pending")
    (_hmismatch : o.user_id ≠ some u) :
    delete_order db oid (some u) = Except.error (ApiError.notPending o.status) := by
  simp only [delete_order, hfind]
  rw [if_pos hstat]

/-- Witness for C10: user 99 (not the owner, user 7) tries to cancel the
Completed order 2 of `wDb` and gets the not-Pending error. -/
theorem c10_witness :
    delete_order wDb 2 (some 99) = Except.error (ApiError.notPending wDone.status) :=
  c10_cancel_nonpending_before_ownership wDb 2 wDone 99 (by decide) (by decide)
    (by decide)

/-- Counterexample to C5 as stated: editing the non-Pending order 2 of
`wDb` (owned by user 7) with a detail field but requesting user 8 fails
with the permission error, not with the not-Pending error — `update_order`
checks ownership before the Pending precondition. -/
theorem c5_counterexample :
    update_order wDb 2 wEditWrongUser = Except.error ApiError.forbidden ∧
    update_order wDb 2 wEditWrongUser ≠
        Except.error (ApiError.notPending "Completed") := by
  decide

/-- C5 amended: on an existing non-Pending order, cancellation fails with
the not-Pending error naming the current status whatever requesting user
is supplied, and a stock-affecting edit fails with the not-Pending error
when the supplied requesting user is absent or matches the owner — but
with the permission error when it mismatches (the ownership check runs
first).  Every failure is raised before any stock statement, so no menu
quantity changes. -/
theorem c5_nonpending_rejected (db : DB) (oid : Int) (o : Order)
    (uid : Option Int) (d : EditInput)
    (hfind : findOrder db.orders oid = some o)
    (hstat : o.status ≠ "Pending") :
    delete_order db oid uid = Except.error (ApiError.notPending o.status) ∧
    ((d.user_id = none ∨ d.user_id = o.user_id) → hasDetailField d = true →
      update_order db oid d = Except.error (ApiError.notPending o.status)) ∧
    (d.user_id.isSome ∧ d.user_id ≠ o.user_id →
      update_order db oid d = Except.error ApiError.forbidden) := by
  refine ⟨?_, ?_, ?_⟩
  · simp only [delete_order, hfind]
    rw [if_pos hstat]
  · intro hown hdetail
    have how : ¬(d.user_id.isSome ∧ d.user_id ≠ o.user_id) := by
      rcases hown with hn | he
      · simp [hn]
      · simp [he]
    simp only [update_order, hfind]
    rw [if_neg how, if_pos hdetail, if_pos hstat]
  · intro hmm
    simp only [update_order, hfind]
    rw [if_pos hmm]

/-- Witness for C5 (amended): on the Completed order 2 of `wDb`, a cancel
by user 99 and a detail edit without a requesting user both report
not-Pending; the same edit as user 8 reports the permission error. -/
theorem c5_witness :
    delete_order wDb 2 (some 99) = Except.error (ApiError.notPending wDone.status) ∧
    ((wEditDetail.user_id = none ∨ wEditDetail.user_id = wDone.user_id) →
      hasDetailField wEditDetail = true →
      update_order wDb 2 wEditDetail = Except.error (ApiError.notPending wDone.status)) ∧
    (wEditDetail.user_id.isSome ∧ wEditDetail.user_id ≠ wDone.user_id →
      update_order wDb 2 wEditDetail = Except.error ApiError.forbidden) :=
  c5_nonpending_rejected wDb 2 wDone (some 99) wEditDetail (by decide) (by decide)

theorem qtyOf_eq_none (m : Menu) (j : Int) (h : qtyOf m j = none) :
    findItem m j = none := by
  unfold qtyOf at h
  cases hf : findItem m j
  · rfl
  · rw [hf] at h; simp at h

theorem wMenu_nonneg : NonnegMenu wMenu := by
  intro j c h
  by_cases h1 : (1 : Int) = j
  · subst h1
    simp [wMenu, qtyOf, findItem] at h
    omega
  · by_cases h2 : (2 : Int) = j
    · subst h2
      simp [wMenu, qtyOf, findItem, h1] at h
      omega
    · simp [wMenu, qtyOf, findItem, h1, h2] at h

/-- C4: editing a Pending order by re-submitting its stored items
unchanged nets to zero stock change: the edit succeeds and every menu
item's quantity is exactly what it was before the call (the restoration
of the old items is followed by an equal deduction for the new ones). -/
theorem c4_edit_identical_items (db : DB) (oid : Int) (o : Order)
    (d : EditInput)
    (hfind : findOrder db.orders oid = some o)
    (hstat : o.status = "Pending")
    (hown : d.user_id = none ∨ d.user_id = o.user_id)
    (hitems : d.items = some o.items)
    (hnn : NonnegMenu db.menu) :
    ∃ r, update_order db oid d = Except.ok r ∧
      ∀ j, qtyOf r.1.menu j = qtyOf db.menu j := by
  have hdetail : hasDetailField d = true := by
    unfold hasDetailField
    rw [hitems]
    simp
  have how : ¬(d.user_id.isSome ∧ d.user_id ≠ o.user_id) := by
    rcases hown with hn | he
    · simp [hn]
    · simp [he]
  simp only [update_order, hfind]
  rw [if_neg how, if_pos hdetail, if_neg (by simp [hstat]), hitems]
  refine ⟨_, rfl, ?_⟩
  intro j
  show qtyOf (deductAll (restoreAll db.menu o.items) o.items) j = qtyOf db.menu j
  cases hq : qtyOf db.menu j with
  | none =>
    have hnone := qtyOf_eq_none db.menu j hq
    have h1 := findItem_restoreAll_none o.items db.menu j hnone
    have h2 := findItem_deductAll_none o.items _ j h1
    unfold qtyOf
    rw [h2]
    rfl
  | some c =>
    have hc := hnn j c hq
    have hT := totalDeduct_nonneg o.items j
    have h1 := qtyOf_restoreAll o.items db.menu j c hq
    have h2 := qtyOf_deductAll o.items _ j (c + totalDeduct o.items j) h1
      (by omega)
    rw [h2]
    congr 1
    omega

/-- Witness for C4: user 7 re-submits the items of their Pending order 1
in `wDb` unchanged; item 1 keeps its 5 units. -/
theorem c4_witness :
    ∃ r, update_order wDb 1 wEditSame = Except.ok r ∧
      ∀ j, qtyOf r.1.menu j = qtyOf wDb.menu j :=
  c4_edit_identical_items wDb 1 wPending wEditSame (by decide) (by decide)
    (by decide) (by decide) wMenu_nonneg

/-- C6: each of the three operations maps a menu with no negative
quantities to a menu with no negative quantities: deductions are clamped
at zero and restorations only add positive amounts, so no call drives a
quantity negative (nor errors on a would-be negative). -/
theorem c6_ops_preserve_nonneg (db : DB) (hnn : NonnegMenu db.menu) :
    (∀ inp, NonnegMenu (place_order db inp).1.menu) ∧
    (∀ oid uid db', delete_order db oid uid = Except.ok db' →
      NonnegMenu db'.menu) ∧
    (∀ oid d r, update_order db oid d = Except.ok r →
      NonnegMenu r.1.menu) := by
  refine ⟨?_, ?_, ?_⟩
  · intro inp
    exact deductAll_nonneg inp.items db.menu hnn
  · intro oid uid db' h
    cases hfind : findOrder db.orders oid with
    | none =>
      simp only [delete_order, hfind] at h
      exact Except.noConfusion h
    | some o =>
      simp only [delete_order, hfind] at h
      split at h
      · exact Except.noConfusion h
      · split at h
        · exact Except.noConfusion h
        · simp only [Except.ok.injEq] at h
          subst h
          exact restoreAll_nonneg o.items db.menu hnn
  · intro oid d r h
    cases hfind : findOrder db.orders oid with
    | none =>
      simp only [update_order, hfind] at h
      exact Except.noConfusion h
    | some o =>
      simp only [update_order, hfind] at h
      split at h
      · exact Except.noConfusion h
      · split at h
        · split at h
          · exact Except.noConfusion h
          · cases hitems : d.items with
            | some ni =>
              simp only [hitems, Except.ok.injEq] at h
              subst h
              exact deductAll_nonneg ni _ (restoreAll_nonneg o.items db.menu hnn)
            | none =>
              simp only [hitems, Except.ok.injEq] at h
              subst h
              exact hnn
        · cases hs : d.status with
          | some s =>
            simp only [hs, Except.ok.injEq] at h
            subst h
            exact hnn
          | none =>
            simp only [hs] at h
            exact Except.noConfusion h

/-- Witness for C6: `wDb`'s menu has no negative stock, so none of the
three operations can produce one from it. -/
theorem c6_witness :
    (∀ inp, NonnegMenu (place_order wDb inp).1.menu) ∧
    (∀ oid uid db', delete_order wDb oid uid = Except.ok db' →
      NonnegMenu db'.menu) ∧
    (∀ oid d r, update_order wDb oid d = Except.ok r →
      NonnegMenu r.1.menu) :=
  c6_ops_preserve_nonneg wDb wMenu_nonneg

/-- Counterexample to C1 as stated: item 1 starts with 1 unit; placing an
order for 3 units clamps the stock at 0, so only 1 unit was actually
deducted, yet cancelling the order restores the full 3 units, leaving 3 —
strictly more than was deducted (the deduction was `1 - 0 = 1`, the
restoration `3 - 0 = 3`). -/
theorem c1_counterexample :
    qtyOf cDb0.menu 1 = some 1 ∧
    qtyOf cDb1.menu 1 = some 0 ∧
    exceptMenuQty (delete_order cDb1 1 none) 1 = some 3 ∧
    ¬((1 : Int) - 0 = 3 - 0) := by
  decide

theorem wDb_noclamp (j c : Int) (h : qtyOf wDb.menu j = some c) :
    totalDeduct wInp.items j ≤ c := by
  by_cases h1 : (1 : Int) = j
  · subst h1
    simp [wDb, wMenu, qtyOf, findItem] at h
    have ht : totalDeduct wInp.items 1 = 2 := by decide
    omega
  · by_cases h2 : (2 : Int) = j
    · subst h2
      simp [wDb, wMenu, qtyOf, findItem, h1] at h
      have ht : totalDeduct wInp.items 2 = 0 := by decide
      omega
    · simp [wDb, wMenu, qtyOf, findItem, h1, h2] at h

/-- C1 amended: the restoration performed on cancel (or on editing items
away) adds back each line item's full ordered quantity; this equals the
amount that was deducted exactly when no deduction was clamped at zero,
i.e. when each referenced item's stock covered the quantity ordered from
it.  Under that proviso, placing an order and then cancelling it returns
every menu quantity to its original value; when a deduction is clamped,
the restoration exceeds the deduction (see the counterexample). -/
theorem c1_place_cancel_roundtrip (db : DB) (inp : PlaceInput)
    (hfresh : findOrder db.orders db.nextId = none)
    (hnn : NonnegMenu db.menu)
    (hnoclamp : ∀ j c, qtyOf db.menu j = some c →
      totalDeduct inp.items j ≤ c) :
    ∃ db2, delete_order (place_order db inp).1 db.nextId none = Except.ok db2 ∧
      ∀ j, qtyOf db2.menu j = qtyOf db.menu j := by
  have hfind1 : findOrder (place_order db inp).1.orders db.nextId =
      some (place_order db inp).2 :=
    findOrder_append_fresh db.orders db.nextId _ hfresh
  have heq : delete_order (place_order db inp).1 db.nextId none = Except.ok
      { (place_order db inp).1 with
          menu := restoreAll (place_order db inp).1.menu inp.items
          orders := deleteOrderRow (place_order db inp).1.orders db.nextId } := by
    simp only [delete_order, hfind1]
    rw [if_neg (by simp [place_order]), if_neg (by simp)]
    rfl
  refine ⟨_, heq, ?_⟩
  intro j
  show qtyOf (restoreAll (deductAll db.menu inp.items) inp.items) j = qtyOf db.menu j
  cases hq : qtyOf db.menu j with
  | none =>
    have hnone := qtyOf_eq_none db.menu j hq
    have h1 := findItem_deductAll_none inp.items db.menu j hnone
    have h2 := findItem_restoreAll_none inp.items _ j h1
    unfold qtyOf
    rw [h2]
    rfl
  | some c =>
    have hc := hnn j c hq
    have hT := hnoclamp j c hq
    have hTn := totalDeduct_nonneg inp.items j
    have h1 := qtyOf_deductAll inp.items db.menu j c hq hc
    have h2 := qtyOf_restoreAll inp.items _ j (max 0 (c - totalDeduct inp.items j)) h1
    rw [h2]
    congr 1
    omega

/-- Witness for C1 (amended): `wInp` orders 2 units of item 1 against a
stock of 5 (no clamping), so place-then-cancel restores `wDb`'s menu
quantities exactly. -/
theorem c1_witness :
    ∃ db2, delete_order (place_order wDb wInp).1 wDb.nextId none = Except.ok db2 ∧
      ∀ j, qtyOf db2.menu j = qtyOf wDb.menu j :=
  c1_place_cancel_roundtrip wDb wInp (by decide) wMenu_nonneg wDb_noclamp

/-- Counterexample to C8 as stated: deducting 3 units from item 1 when its
stock is exactly 3 drives the quantity to zero, and the code then issues a
second `UPDATE` on the same `menu_items` row to clear `is_available` —
two writes, not at most one. -/
theorem c8_counterexample :
    countWrites (deduct_stock [(1, ⟨3, true⟩)] 1 3).2 = 2 ∧
    ¬(countWrites (deduct_stock [(1, ⟨3, true⟩)] 1 3).2 ≤ 1) := by
  decide

/-- C8 amended: every invocation of the stock-adjustment primitive (the
deduction body shared by `place_order`/`update_order` and the restoration
body shared by `delete_order`/`update_order`) performs exactly one read of
the item's quantity and at most two writes to the `menu_items` row: the
quantity write, plus an `is_available` write when the quantity crosses the
zero boundary. -/
theorem c8_adjust_stock_rw (m : Menu) (i q : Int) :
    countReads (deduct_stock m i q).2 = 1 ∧
    countWrites (deduct_stock m i q).2 ≤ 2 ∧
    countReads (restore_stock m i q).2 = 1 ∧
    countWrites (restore_stock m i q).2 ≤ 2 := by
  refine ⟨?_, ?_, ?_, ?_⟩
  · unfold deduct_stock
    cases hf : findItem m i
    · rfl
    · simp only
      split
      · rfl
      · rfl
  · unfold deduct_stock
    cases hf : findItem m i
    · simp [countWrites]
    · simp only
      split
      · simp [countWrites]
      · simp [countWrites]
  · unfold restore_stock
    cases hf : findItem m i
    · rfl
    · simp only
      split
      · rfl
      · rfl
  · unfold restore_stock
    cases hf : findItem m i
    · simp [countWrites]
    · simp only
      split
      · simp [countWrites]
      · simp [countWrites]

/-- C9 (the spec itself flags this as a gap in the original code): with
item 1 at 10 units, two concurrent placements of 6 units each may both
read the stale quantity 10 before either writes (no transaction or row
lock prevents it); each then succeeds in full, believing it deducted 6,
while the final stock is 4 — the sum of believed deductions, 12, exceeds
the pre-operation quantity 10 (oversell). -/
theorem c9_concurrent_oversell :
    concurrent_place_deduct [(1, ⟨10, true⟩)] 1 6 6 = ([(1, ⟨4, true⟩)], 6, 6) ∧
    ¬((6 : Int) + 6 ≤ 10) := by
  decide

end Canteen
